import Mathlib

/-!
Verification of the apply/prune engine and inventory lifecycle of the
cli-utils repository, shallowly embedded in Lean 4.  Pure data model and
algorithms are translated from the Go sources under `src/`; parts of the
repository whose sources are not included (only their tests or callers
are) are reconstructed from the specification and are marked
`Modelled from the spec:` in their doc comments.
-/

namespace CliUtils

/-- The identity of a resource: `(group, kind, namespace, name)`
(`object.ObjMetadata`; the `object` package is not under `src/`, the
structure follows the spec's data model, which lists exactly these four
string attributes; `nspace` stands for the `Namespace` field, whose name
is reserved in Lean). -/
structure ObjMetadata where
  group : String
  kind : String
  nspace : String
  name : String
deriving DecidableEq, Repr

/-- Union of two object-ID sets (`ObjMetadataSet.Union`; modelled from
the spec's set algebra: unordered set semantics, first operand's
elements first, duplicates from the second dropped). -/
def oUnion (a b : List ObjMetadata) : List ObjMetadata :=
  a ++ b.filter (fun x => decide (x ∉ a))

/-- Intersection of two object-ID sets (`ObjMetadataSet.Intersection`). -/
def oIntersection (a b : List ObjMetadata) : List ObjMetadata :=
  a.filter (fun x => decide (x ∈ b))

/-- Difference `a \ b` of two object-ID sets (`ObjMetadataSet.Diff`). -/
def oDiff (a b : List ObjMetadata) : List ObjMetadata :=
  a.filter (fun x => decide (x ∉ b))

/-- Boolean subset test on object-ID sets. -/
def oSubset (a b : List ObjMetadata) : Bool :=
  a.all (fun x => decide (x ∈ b))

/-- Boolean set equality ignoring order and multiplicity
(`ObjMetadataSet.Equal`). -/
def oSetEq (a b : List ObjMetadata) : Bool :=
  oSubset a b && oSubset b a

theorem mem_oUnion (a b : List ObjMetadata) (x : ObjMetadata) :
    x ∈ oUnion a b ↔ x ∈ a ∨ x ∈ b := by
  unfold oUnion
  simp only [List.mem_append, List.mem_filter, decide_eq_true_eq]
  constructor
  · rintro (h | ⟨h, _⟩)
    · exact Or.inl h
    · exact Or.inr h
  · intro h
    by_cases hx : x ∈ a
    · exact Or.inl hx
    · rcases h with h | h
      · exact Or.inl h
      · exact Or.inr ⟨h, hx⟩

theorem mem_oIntersection (a b : List ObjMetadata) (x : ObjMetadata) :
    x ∈ oIntersection a b ↔ x ∈ a ∧ x ∈ b := by
  unfold oIntersection
  simp [List.mem_filter]

theorem mem_oDiff (a b : List ObjMetadata) (x : ObjMetadata) :
    x ∈ oDiff a b ↔ x ∈ a ∧ x ∉ b := by
  unfold oDiff
  simp [List.mem_filter]

theorem oSetEq_iff (a b : List ObjMetadata) :
    oSetEq a b = true ↔ ∀ x, x ∈ a ↔ x ∈ b := by
  unfold oSetEq oSubset
  simp only [Bool.and_eq_true, List.all_eq_true, decide_eq_true_eq]
  constructor
  · rintro ⟨h₁, h₂⟩ x
    exact ⟨fun hx => h₁ x hx, fun hx => h₂ x hx⟩
  · intro h
    exact ⟨fun x hx => (h x).mp hx, fun x hx => (h x).mpr hx⟩

/-- Modelled from the spec: the final-inventory computation of the
`InvSet` task (`InvSetTask.Start` in `pkg/apply/task/inv_set_task.go`,
whose source is not under `src/`; only its test
`src/pkg/apply/task/inv_set_task_test.go` is).  Reconstructed from the
spec's concrete scenarios and the expectations of `TestInvSetTask`:
successfully applied objects are kept; failed and skipped applies are
kept only if previously owned; failed and skipped deletes are kept only
if previously owned (the test at lines 49-55 requires that a failed
delete absent from the previous inventory is dropped); abandoned objects
are removed. -/
def invSetNewInventory (prevInventory appliedObjs failedApplies
    failedDeletes skippedApplies skippedDeletes abandonedObjs :
    List ObjMetadata) : List ObjMetadata :=
  oDiff
    (oUnion
      (oUnion
        (oUnion
          (oUnion appliedObjs (oIntersection prevInventory failedApplies))
          (oIntersection prevInventory failedDeletes))
        (oIntersection prevInventory skippedApplies))
      (oIntersection prevInventory skippedDeletes))
    abandonedObjs

/-- The final-inventory formula exactly as the spec's section 4.4 words
it, for comparison with `invSetNewInventory`: `failedDeletes` and
`skippedDeletes` enter the union unconditionally, without intersection
with the previous inventory. -/
def invSetNewInventorySpec (prevInventory appliedObjs failedApplies
    failedDeletes skippedApplies skippedDeletes abandonedObjs :
    List ObjMetadata) : List ObjMetadata :=
  oDiff
    (oUnion
      (oUnion
        (oUnion
          (oUnion appliedObjs (oIntersection prevInventory failedApplies))
          (oIntersection prevInventory skippedApplies))
        failedDeletes)
      skippedDeletes)
    abandonedObjs

/-- Concrete object identity used in the concrete scenarios (the role of
`obj1` in the tests). -/
def idA : ObjMetadata := ⟨"apps", "Deployment", "test-ns", "obj-a"⟩

/-- Concrete object identity (the role of `obj2` in the tests). -/
def idB : ObjMetadata := ⟨"", "Namespace", "", "obj-b"⟩

/-- Concrete object identity (the role of `obj3` in the tests). -/
def idC : ObjMetadata := ⟨"", "ConfigMap", "test-ns", "obj-c"⟩

/-- C1: the InvSet task's final inventory on the spec's four concrete
scenarios: `prev={}, failedDeletes={A}` gives `{}`;
`prev={A}, failedDeletes={A}` gives `{A}`;
`prev={B,C}, applied={A,B}, failedDeletes={B,C}` gives `{A,B,C}`;
`prev={A,B,C}, applied={A,B}, abandoned={C}` gives `{A,B}`. -/
theorem C1_invset_concrete_scenarios :
    oSetEq (invSetNewInventory [] [] [] [idA] [] [] []) [] = true
    ∧ oSetEq (invSetNewInventory [idA] [] [] [idA] [] [] []) [idA] = true
    ∧ oSetEq (invSetNewInventory [idB, idC] [idA, idB] [] [idB, idC] [] [] [])
        [idA, idB, idC] = true
    ∧ oSetEq (invSetNewInventory [idA, idB, idC] [idA, idB] [] [] [] [] [idC])
        [idA, idB] = true := by
  decide

/-- C2 counterexample: the spec's formula keeps a failed delete that was
not in the previous inventory, but the code (as fixed by the test at
`src/pkg/apply/task/inv_set_task_test.go` lines 49-55) drops it: with
`prev={}`, `failedDeletes={A}` the code's new inventory is `{}` while
the formula yields `{A}`. -/
theorem C2_counterexample :
    invSetNewInventory [] [] [] [idA] [] [] [] = []
    ∧ idA ∈ invSetNewInventorySpec [] [] [] [idA] [] [] []
    ∧ oSetEq (invSetNewInventorySpec [] [] [] [idA] [] [] [])
        (invSetNewInventory [] [] [] [idA] [] [] []) = false := by
  decide

/-- C2 (amended): membership in the final inventory computed by the
InvSet task: an ID survives iff it was successfully applied, or it was
in the previous inventory and its apply failed or was skipped or its
delete failed or was skipped -- and in every case it was not abandoned.
In particular an ID in `failedDeletes` or `skippedDeletes` that is not
abandoned is kept only when it was in the previous inventory. -/
theorem C2_invset_membership (prev applied fA fD sA sD ab : List ObjMetadata)
    (x : ObjMetadata) :
    x ∈ invSetNewInventory prev applied fA fD sA sD ab ↔
      ((x ∈ applied ∨ (x ∈ prev ∧ (x ∈ fA ∨ x ∈ fD ∨ x ∈ sA ∨ x ∈ sD)))
        ∧ x ∉ ab) := by
  unfold invSetNewInventory
  rw [mem_oDiff, mem_oUnion, mem_oUnion, mem_oUnion, mem_oUnion,
    mem_oIntersection, mem_oIntersection, mem_oIntersection,
    mem_oIntersection]
  tauto

/-- A live cluster object as the engine sees it: its identity plus its
annotations (the metadata envelope relevant to the inventory policies
and the prune filters; the raw payload is irrelevant to every claim). -/
structure LiveObj where
  meta : ObjMetadata
  annotations : List (String × String)
deriving DecidableEq, Repr

/-- The ownership-marker annotation key
`"config.k8s.io/owning-inventory"` (spec section 6). -/
def OwningInventoryKey : String := "config.k8s.io/owning-inventory"

/-- Lookup of an annotation value on a live object (Go
`obj.GetAnnotations()[key]` with its found flag as an `Option`). -/
def lookupAnnot (o : LiveObj) (k : String) : Option String :=
  (o.annotations.find? (fun p => decide (p.1 = k))).map Prod.snd

/-- Modelled from the spec: the three ownership-enforcement policies of
`pkg/inventory/policy.go` (not under `src/`; only its test
`src/pkg/inventory/policy_test.go` is). -/
inductive InventoryPolicy where
  | InventoryPolicyMustMatch
  | AdoptIfNoInventory
  | AdoptAll
deriving DecidableEq, Repr

/-- Modelled from the spec: the comparison outcomes of the live owner
annotation against the current inventory ID (`inventoryIDMatchStatus`). -/
inductive InventoryIDMatchStatus where
  | Empty
  | Match
  | NoMatch
deriving DecidableEq, Repr

/-- Modelled from the spec: `InventoryIDMatch` -- reads the
owning-inventory annotation of the live object; absent annotation is
`Empty`, equal to the current inventory ID is `Match`, otherwise
`NoMatch` (behavior fixed by `TestInventoryIDMatch`). -/
def InventoryIDMatch (invID : String) (obj : LiveObj) :
    InventoryIDMatchStatus :=
  match lookupAnnot obj OwningInventoryKey with
  | none => InventoryIDMatchStatus.Empty
  | some v =>
    if v = invID then InventoryIDMatchStatus.Match
    else InventoryIDMatchStatus.NoMatch

/-- Modelled from the spec: `CanApply` -- whether the policy permits
applying over the live object (a `none` object means nothing live:
apply is permitted).  Per the spec's truth table and `TestCanApply`:
`Empty` is permitted unless the policy is `MustMatch`, `Match` is always
permitted, `NoMatch` only under `AdoptAll`; a denial carries an error. -/
def CanApply (invID : String) (obj : Option LiveObj)
    (policy : InventoryPolicy) : Bool × Option String :=
  match obj with
  | none => (true, none)
  | some o =>
    match InventoryIDMatch invID o with
    | InventoryIDMatchStatus.Empty =>
      if policy = InventoryPolicy.InventoryPolicyMustMatch then
        (false, some "cannot adopt an object without the annotation")
      else (true, none)
    | InventoryIDMatchStatus.Match => (true, none)
    | InventoryIDMatchStatus.NoMatch =>
      if policy = InventoryPolicy.AdoptAll then (true, none)
      else (false, some "object belongs to a different inventory")

/-- Modelled from the spec: `CanPrune` -- whether the policy permits
pruning the live object (a `none` object cannot be pruned).  Per the
spec's truth table and `TestCanPrune`: permitted on `Match`, on `Empty`
under `AdoptIfNoInventory`, and always under `AdoptAll`. -/
def CanPrune (invID : String) (obj : Option LiveObj)
    (policy : InventoryPolicy) : Bool :=
  match obj with
  | none => false
  | some o =>
    let m := InventoryIDMatch invID o
    decide (m = InventoryIDMatchStatus.Match)
    || (decide (policy = InventoryPolicy.AdoptIfNoInventory)
        && decide (m = InventoryIDMatchStatus.Empty))
    || decide (policy = InventoryPolicy.AdoptAll)

/-- C3: the closed-form policy matrix of `CanApply` and `CanPrune` for
every live object and inventory ID: an absent owner annotation is denied
both by `MustMatch` and permitted both by `AdoptIfNoInventory` and
`AdoptAll`; a matching annotation is permitted both by all three
policies; a non-matching annotation is denied both by `MustMatch` and
`AdoptIfNoInventory` and permitted both by `AdoptAll`. -/
theorem C3_policy_matrix (invID a : String) (oE oM oN : LiveObj)
    (hE : lookupAnnot oE OwningInventoryKey = none)
    (hM : lookupAnnot oM OwningInventoryKey = some invID)
    (hN : lookupAnnot oN OwningInventoryKey = some a)
    (hne : a ≠ invID) :
    ((CanApply invID (some oE) InventoryPolicy.InventoryPolicyMustMatch).1 = false
      ∧ CanPrune invID (some oE) InventoryPolicy.InventoryPolicyMustMatch = false
      ∧ (CanApply invID (some oE) InventoryPolicy.AdoptIfNoInventory).1 = true
      ∧ CanPrune invID (some oE) InventoryPolicy.AdoptIfNoInventory = true
      ∧ (CanApply invID (some oE) InventoryPolicy.AdoptAll).1 = true
      ∧ CanPrune invID (some oE) InventoryPolicy.AdoptAll = true)
    ∧ ((CanApply invID (some oM) InventoryPolicy.InventoryPolicyMustMatch).1 = true
      ∧ CanPrune invID (some oM) InventoryPolicy.InventoryPolicyMustMatch = true
      ∧ (CanApply invID (some oM) InventoryPolicy.AdoptIfNoInventory).1 = true
      ∧ CanPrune invID (some oM) InventoryPolicy.AdoptIfNoInventory = true
      ∧ (CanApply invID (some oM) InventoryPolicy.AdoptAll).1 = true
      ∧ CanPrune invID (some oM) InventoryPolicy.AdoptAll = true)
    ∧ ((CanApply invID (some oN) InventoryPolicy.InventoryPolicyMustMatch).1 = false
      ∧ CanPrune invID (some oN) InventoryPolicy.InventoryPolicyMustMatch = false
      ∧ (CanApply invID (some oN) InventoryPolicy.AdoptIfNoInventory).1 = false
      ∧ CanPrune invID (some oN) InventoryPolicy.AdoptIfNoInventory = false
      ∧ (CanApply invID (some oN) InventoryPolicy.AdoptAll).1 = true
      ∧ CanPrune invID (some oN) InventoryPolicy.AdoptAll = true) := by
  simp only [CanApply, CanPrune, InventoryIDMatch, hE, hM, hN]
  simp [hne]

/-- C3 witness: the matrix at the tests' concrete inputs -- inventory ID
`"random-id"`, a live object with no annotations, one annotated with the
inventory ID, and one annotated `"unmatched"`. -/
theorem C3_policy_matrix_witness :
    ((CanApply "random-id" (some ⟨idA, []⟩)
        InventoryPolicy.InventoryPolicyMustMatch).1 = false
      ∧ CanPrune "random-id" (some ⟨idA, []⟩)
          InventoryPolicy.InventoryPolicyMustMatch = false
      ∧ (CanApply "random-id" (some ⟨idA, []⟩)
          InventoryPolicy.AdoptIfNoInventory).1 = true
      ∧ CanPrune "random-id" (some ⟨idA, []⟩)
          InventoryPolicy.AdoptIfNoInventory = true
      ∧ (CanApply "random-id" (some ⟨idA, []⟩)
          InventoryPolicy.AdoptAll).1 = true
      ∧ CanPrune "random-id" (some ⟨idA, []⟩)
          InventoryPolicy.AdoptAll = true)
    ∧ ((CanApply "random-id"
          (some ⟨idA, [(OwningInventoryKey, "random-id")]⟩)
          InventoryPolicy.InventoryPolicyMustMatch).1 = true
      ∧ CanPrune "random-id"
          (some ⟨idA, [(OwningInventoryKey, "random-id")]⟩)
          InventoryPolicy.InventoryPolicyMustMatch = true
      ∧ (CanApply "random-id"
          (some ⟨idA, [(OwningInventoryKey, "random-id")]⟩)
          InventoryPolicy.AdoptIfNoInventory).1 = true
      ∧ CanPrune "random-id"
          (some ⟨idA, [(OwningInventoryKey, "random-id")]⟩)
          InventoryPolicy.AdoptIfNoInventory = true
      ∧ (CanApply "random-id"
          (some ⟨idA, [(OwningInventoryKey, "random-id")]⟩)
          InventoryPolicy.AdoptAll).1 = true
      ∧ CanPrune "random-id"
          (some ⟨idA, [(OwningInventoryKey, "random-id")]⟩)
          InventoryPolicy.AdoptAll = true)
    ∧ ((CanApply "random-id"
          (some ⟨idA, [(OwningInventoryKey, "unmatched")]⟩)
          InventoryPolicy.InventoryPolicyMustMatch).1 = false
      ∧ CanPrune "random-id"
          (some ⟨idA, [(OwningInventoryKey, "unmatched")]⟩)
          InventoryPolicy.InventoryPolicyMustMatch = false
      ∧ (CanApply "random-id"
          (some ⟨idA, [(OwningInventoryKey, "unmatched")]⟩)
          InventoryPolicy.AdoptIfNoInventory).1 = false
      ∧ CanPrune "random-id"
          (some ⟨idA, [(OwningInventoryKey, "unmatched")]⟩)
          InventoryPolicy.AdoptIfNoInventory = false
      ∧ (CanApply "random-id"
          (some ⟨idA, [(OwningInventoryKey, "unmatched")]⟩)
          InventoryPolicy.AdoptAll).1 = true
      ∧ CanPrune "random-id"
          (some ⟨idA, [(OwningInventoryKey, "unmatched")]⟩)
          InventoryPolicy.AdoptAll = true) :=
  C3_policy_matrix "random-id" "unmatched" ⟨idA, []⟩
    ⟨idA, [(OwningInventoryKey, "random-id")]⟩
    ⟨idA, [(OwningInventoryKey, "unmatched")]⟩
    (by decide) (by decide) (by decide) (by decide)

/-- Modelled from the spec: the character sequence of the canonical
string form of an `ObjMetadata` -- `group/namespace/name/kind` (spec
section 3; `ObjMetadata.String` of the `object` package is not under
`src/`). -/
def canonChars (id : ObjMetadata) : List Char :=
  id.group.data ++ '/' :: (id.nspace.data ++ '/' :: (id.name.data
    ++ '/' :: id.kind.data))

/-- The canonical string form of an `ObjMetadata`. -/
def toCanonical (id : ObjMetadata) : String :=
  String.mk (canonChars id)

/-- Split of a character list at every separator character `'/'`. -/
def splitOnSlash : List Char → List (List Char)
  | [] => [[]]
  | c :: cs =>
    if c = '/' then [] :: splitOnSlash cs
    else
      match splitOnSlash cs with
      | [] => [[c]]
      | p :: ps => (c :: p) :: ps

/-- Modelled from the spec: `ParseObjMetadata` -- parses the canonical
`group/namespace/name/kind` form back into an `ObjMetadata`; any other
shape is an error (spec section 3: the canonical form must round-trip
via parse). -/
def ParseObjMetadata (s : String) : Except String ObjMetadata :=
  match splitOnSlash s.data with
  | [g, ns, n, k] =>
    Except.ok ⟨String.mk g, String.mk k, String.mk ns, String.mk n⟩
  | _ => Except.error ("unable to parse object metadata from string: " ++ s)

/-- Every field of the identity is free of the separator character, so
its canonical form is unambiguous. -/
def SlashFree (id : ObjMetadata) : Prop :=
  '/' ∉ id.group.data ∧ '/' ∉ id.nspace.data ∧ '/' ∉ id.name.data
    ∧ '/' ∉ id.kind.data

instance (id : ObjMetadata) : Decidable (SlashFree id) := by
  unfold SlashFree
  infer_instance

theorem splitOnSlash_ne_nil (l : List Char) : splitOnSlash l ≠ [] := by
  match l with
  | [] => simp [splitOnSlash]
  | c :: cs =>
    unfold splitOnSlash
    by_cases h : c = '/'
    · simp [h]
    · simp only [h, if_false]
      cases hs : splitOnSlash cs <;> simp

theorem splitOnSlash_noSlash (l : List Char) (h : '/' ∉ l) :
    splitOnSlash l = [l] := by
  induction l with
  | nil => rfl
  | cons c cs ih =>
    have hc : ¬ c = '/' := fun hc => h (by simp [hc])
    have hcs : '/' ∉ cs := fun hm => h (List.mem_cons_of_mem _ hm)
    simp only [splitOnSlash, if_neg hc, ih hcs]

theorem splitOnSlash_append (xs ys : List Char) (h : '/' ∉ xs) :
    splitOnSlash (xs ++ '/' :: ys) = xs :: splitOnSlash ys := by
  induction xs with
  | nil => simp [splitOnSlash]
  | cons c cs ih =>
    have hc : ¬ c = '/' := fun hc => h (by simp [hc])
    have hcs : '/' ∉ cs := fun hm => h (List.mem_cons_of_mem _ hm)
    rw [List.cons_append]
    simp only [splitOnSlash, if_neg hc, ih hcs]

/-- Round-trip of the canonical form: parsing the canonical string of a
separator-free identity recovers the identity (spec section 3: "must
round-trip via parse"). -/
theorem parse_toCanonical (id : ObjMetadata) (h : SlashFree id) :
    ParseObjMetadata (toCanonical id) = Except.ok id := by
  obtain ⟨hg, hns, hn, hk⟩ := h
  have hsplit : splitOnSlash (toCanonical id).data
      = [id.group.data, id.nspace.data, id.name.data, id.kind.data] := by
    show splitOnSlash (canonChars id) = _
    unfold canonChars
    rw [splitOnSlash_append _ _ hg, splitOnSlash_append _ _ hns,
      splitOnSlash_append _ _ hn, splitOnSlash_noSlash _ hk]
  unfold ParseObjMetadata
  rw [hsplit]

/-- Per-object actuation status record (`actuation.ObjectStatus`): the
object reference plus the names of the three status enums (the enum
values are opaque strings here; only their serialized text matters to
the inventory record format). -/
structure ObjectStatus where
  ref : ObjMetadata
  strategy : String
  actuation : String
  reconcile : String
deriving DecidableEq, Repr

/-- Serialization of one status triple into the inventory record value
(`stringFrom` in `src/unnamed/part_002`): the JSON encoding of the map
with the three fields, whose keys marshal in sorted order; the map
always has three entries so the empty-object fallback of the source
never fires. -/
def stringFrom (status : ObjectStatus) : String :=
  "\x7b\"actuation\":\"" ++ status.actuation
    ++ "\",\"reconcile\":\"" ++ status.reconcile
    ++ "\",\"strategy\":\"" ++ status.strategy ++ "\"\x7d"

/-- Insertion into the string-to-string data map with Go map semantics:
an existing key's value is replaced, a new key is appended. -/
def insertKV : List (String × String) → String → String →
    List (String × String)
  | [], k, v => [(k, v)]
  | (k0, v0) :: rest, k, v =>
    if k0 = k then (k0, v) :: rest else (k0, v0) :: insertKV rest k v

/-- Lookup of the status entry for an object reference in the status
list (the `objStatusMap` of `buildObjMap`; Go map construction keeps the
last entry for a duplicated reference, hence the reverse search). -/
def objStatusLookup (objStatus : List ObjectStatus)
    (objMetadata : ObjMetadata) : Option ObjectStatus :=
  objStatus.reverse.find? (fun st => decide (st.ref = objMetadata))

/-- The inventory data map built from the object set and statuses
(`buildObjMap` in `src/unnamed/part_002`): each object's canonical
string maps to its serialized status, or to `""` when the statuses
carry no entry for it. -/
def buildObjMap (objMetas : List ObjMetadata)
    (objStatus : List ObjectStatus) : List (String × String) :=
  objMetas.foldl
    (fun objMap objMetadata =>
      match objStatusLookup objStatus objMetadata with
      | some status => insertKV objMap (toCanonical objMetadata) (stringFrom status)
      | none => insertKV objMap (toCanonical objMetadata) "")
    []

/-- The wrapped ConfigMap resource that stores an inventory record:
name, namespace, inventory-ID label, version token, generation and
observed generation for the status contract, and the `data` string map
(the fields of the `unstructured.Unstructured` ConfigMap that the
inventory client reads or writes). -/
structure ConfigMapObj where
  name : String
  nspace : String
  labels : List (String × String)
  resourceVersion : Nat
  generation : Nat
  observedGeneration : Option Nat
  data : List (String × String)
deriving DecidableEq, Repr

/-- The in-memory inventory record tracking the last-fetched cluster
object (`UnstructuredInventory` in
`src/pkg/inventory/inventory-client.go`, with `BaseInventory`'s `Objs`
and `ObjStatuses` inlined). -/
structure UnstructuredInventory where
  Objs : List ObjMetadata
  ObjStatuses : List ObjectStatus
  ClusterObj : ConfigMapObj
deriving DecidableEq, Repr

/-- Encoding of an inventory record into its ConfigMap
(`inventoryToConfigMap` in `src/unnamed/part_002`): a copy of the
cluster object whose `data` section is replaced by the object map. -/
def inventoryToConfigMap (inv : UnstructuredInventory) : ConfigMapObj :=
  { inv.ClusterObj with data := buildObjMap inv.Objs inv.ObjStatuses }

/-- Decode of the keys of the `data` map into the owned object set; a
key that fails to parse aborts the decode, the values are ignored. -/
def decodeDataKeys : List (String × String) →
    Except String (List ObjMetadata)
  | [] => Except.ok []
  | (k, _) :: rest =>
    match ParseObjMetadata k with
    | Except.error e => Except.error e
    | Except.ok obj =>
      match decodeDataKeys rest with
      | Except.error e => Except.error e
      | Except.ok objs => Except.ok (obj :: objs)

/-- Decoding of a ConfigMap into an inventory record
(`configMapToInventory` in `src/unnamed/part_002`): the object set is
read from the keys of the `data` section (an absent section would give
the empty set), the ConfigMap itself is retained as `ClusterObj`, and
no statuses are populated. -/
def configMapToInventory (configMap : ConfigMapObj) :
    Except String UnstructuredInventory :=
  match decodeDataKeys configMap.data with
  | Except.error e => Except.error e
  | Except.ok objs =>
    Except.ok { Objs := objs, ObjStatuses := [], ClusterObj := configMap }

/-- Replaces every value of the data map by the empty string, keeping
the keys. -/
def blankValues (configMap : ConfigMapObj) : ConfigMapObj :=
  { configMap with data := configMap.data.map (fun p => (p.1, "")) }

theorem insertKV_keys (m : List (String × String)) (k0 v0 : String)
    (k : String) :
    k ∈ (insertKV m k0 v0).map Prod.fst ↔
      k ∈ m.map Prod.fst ∨ k = k0 := by
  induction m with
  | nil => simp [insertKV]
  | cons p rest ih =>
    unfold insertKV
    by_cases h : p.1 = k0
    · simp only [h, if_true]
      constructor
      · intro hm
        rcases (by simpa using hm) with h1 | h1
        · exact Or.inl (by simp [h1, h])
        · exact Or.inl (by simp [h1])
      · intro hm
        rcases hm with h1 | h1
        · rcases (by simpa using h1) with h2 | h2
          · simp [h2, h]
          · simp [h2]
        · simp [h1]
    · simp only [h, if_false]
      simp only [List.map_cons, List.mem_cons] at ih ⊢
      tauto

theorem buildObjMap_keys_aux (sts : List ObjectStatus)
    (objs : List ObjMetadata) (m0 : List (String × String)) (k : String) :
    k ∈ (objs.foldl
        (fun objMap objMetadata =>
          match objStatusLookup sts objMetadata with
          | some status =>
            insertKV objMap (toCanonical objMetadata) (stringFrom status)
          | none => insertKV objMap (toCanonical objMetadata) "")
        m0).map Prod.fst ↔
      k ∈ m0.map Prod.fst ∨ ∃ id ∈ objs, k = toCanonical id := by
  induction objs generalizing m0 with
  | nil => simp
  | cons id rest ih =>
    simp only [List.foldl_cons]
    have step : ∀ m1 : List (String × String),
        (match objStatusLookup sts id with
          | some status => insertKV m1 (toCanonical id) (stringFrom status)
          | none => insertKV m1 (toCanonical id) "") = insertKV m1 (toCanonical id)
            (match objStatusLookup sts id with
              | some status => stringFrom status
              | none => "") := by
      intro m1
      cases objStatusLookup sts id <;> rfl
    rw [step m0, ih]
    rw [insertKV_keys]
    simp only [List.mem_cons]
    constructor
    · rintro (⟨h1 | h1⟩ | ⟨id2, h2, h3⟩)
      · exact Or.inl h1
      · exact Or.inr ⟨id, Or.inl rfl, h1⟩
      · exact Or.inr ⟨id2, Or.inr h2, h3⟩
    · rintro (h1 | ⟨id2, h2 | h2, h3⟩)
      · exact Or.inl (Or.inl h1)
      · exact Or.inl (Or.inr (by rw [h3, h2]))
      · exact Or.inr ⟨id2, h2, h3⟩

theorem buildObjMap_keys (objs : List ObjMetadata)
    (sts : List ObjectStatus) (k : String) :
    k ∈ (buildObjMap objs sts).map Prod.fst ↔
      ∃ id ∈ objs, k = toCanonical id := by
  unfold buildObjMap
  rw [buildObjMap_keys_aux]
  simp

theorem decodeDataKeys_ok (data : List (String × String))
    (h : ∀ k ∈ data.map Prod.fst, ∃ id, ParseObjMetadata k = Except.ok id) :
    ∃ objs, decodeDataKeys data = Except.ok objs ∧
      ∀ x, x ∈ objs ↔ ∃ k ∈ data.map Prod.fst,
        ParseObjMetadata k = Except.ok x := by
  induction data with
  | nil => exact ⟨[], rfl, by simp⟩
  | cons p rest ih =>
    obtain ⟨id, hid⟩ := h p.1 (by simp)
    obtain ⟨objs, hobjs, hmem⟩ := ih (fun k hk => h k (by simp [hk]))
    refine ⟨id :: objs, ?_, ?_⟩
    · show decodeDataKeys ((p.1, p.2) :: rest) = _
      unfold decodeDataKeys
      rw [hid, hobjs]
    · intro x
      simp only [List.map_cons, List.mem_cons, hmem]
      constructor
      · rintro (h1 | h1)
        · exact ⟨p.1, Or.inl rfl, by rw [h1]; exact hid⟩
        · obtain ⟨k, hk, hp⟩ := h1
          exact ⟨k, Or.inr hk, hp⟩
      · rintro ⟨k, hk | hk, hp⟩
        · rw [hk] at hp
          rw [hid] at hp
          exact Or.inl (by injection hp with h2; exact h2.symm)
        · exact Or.inr ⟨k, hk, hp⟩

theorem decodeDataKeys_blank (data : List (String × String)) :
    decodeDataKeys (data.map (fun p => (p.1, ""))) = decodeDataKeys data := by
  induction data with
  | nil => rfl
  | cons p rest ih =>
    show decodeDataKeys ((p.1, "") :: rest.map _) = decodeDataKeys ((p.1, p.2) :: rest)
    unfold decodeDataKeys
    rw [ih]

/-- C5: encoding an inventory record to its ConfigMap and decoding it
back yields an inventory whose `Objects` set is equal as a set to the
original, provided every identity is free of the canonical-form
separator; and the decoder ignores the status values entirely, so it
tolerates empty status strings: blanking every value of the data map
decodes to the same object set. -/
theorem C5_configmap_roundtrip (inv : UnstructuredInventory)
    (h : ∀ id ∈ inv.Objs, SlashFree id) :
    (∃ inv2, configMapToInventory (inventoryToConfigMap inv) = Except.ok inv2
      ∧ oSetEq inv2.Objs inv.Objs = true)
    ∧ (∃ inv3, configMapToInventory (blankValues (inventoryToConfigMap inv))
        = Except.ok inv3 ∧ oSetEq inv3.Objs inv.Objs = true) := by
  have hkeys : ∀ k ∈ (inventoryToConfigMap inv).data.map Prod.fst,
      ∃ id, ParseObjMetadata k = Except.ok id := by
    intro k hk
    rw [inventoryToConfigMap] at hk
    obtain ⟨id, hid, hkc⟩ := (buildObjMap_keys _ _ _).mp hk
    exact ⟨id, by rw [hkc]; exact parse_toCanonical id (h id hid)⟩
  obtain ⟨objs, hdec, hmem⟩ := decodeDataKeys_ok _ hkeys
  have hset : ∀ x, x ∈ objs ↔ x ∈ inv.Objs := by
    intro x
    rw [hmem]
    constructor
    · rintro ⟨k, hk, hp⟩
      rw [inventoryToConfigMap] at hk
      obtain ⟨id, hid, hkc⟩ := (buildObjMap_keys _ _ _).mp hk
      rw [hkc, parse_toCanonical id (h id hid)] at hp
      injection hp with h2
      rw [← h2]
      exact hid
    · intro hx
      refine ⟨toCanonical x, ?_, parse_toCanonical x (h x hx)⟩
      rw [inventoryToConfigMap]
      exact (buildObjMap_keys _ _ _).mpr ⟨x, hx, rfl⟩
  constructor
  · refine ⟨⟨objs, [], inventoryToConfigMap inv⟩, ?_, ?_⟩
    · unfold configMapToInventory
      rw [hdec]
    · exact (oSetEq_iff _ _).mpr hset
  · refine ⟨⟨objs, [], blankValues (inventoryToConfigMap inv)⟩, ?_, ?_⟩
    · unfold configMapToInventory
      have : (blankValues (inventoryToConfigMap inv)).data
          = (inventoryToConfigMap inv).data.map (fun p => (p.1, "")) := rfl
      rw [this, decodeDataKeys_blank, hdec]
    · exact (oSetEq_iff _ _).mpr hset

/-- An empty backing ConfigMap used by the concrete scenarios. -/
def cmBase : ConfigMapObj :=
  { name := "inventory-obj", nspace := "test-ns",
    labels := [("cli-utils.sigs.k8s.io/inventory-id", "test-inv")],
    resourceVersion := 0, generation := 1, observedGeneration := none,
    data := [] }

/-- C5 witness: the round trip at a concrete two-object inventory with
one status entry. -/
theorem C5_configmap_roundtrip_witness :
    (∃ inv2, configMapToInventory (inventoryToConfigMap
        { Objs := [idA, idB],
          ObjStatuses := [⟨idA, "Apply", "Succeeded", "Succeeded"⟩],
          ClusterObj := cmBase }) = Except.ok inv2
      ∧ oSetEq inv2.Objs [idA, idB] = true)
    ∧ (∃ inv3, configMapToInventory (blankValues (inventoryToConfigMap
        { Objs := [idA, idB],
          ObjStatuses := [⟨idA, "Apply", "Succeeded", "Succeeded"⟩],
          ClusterObj := cmBase })) = Except.ok inv3
      ∧ oSetEq inv3.Objs [idA, idB] = true) :=
  C5_configmap_roundtrip
    { Objs := [idA, idB],
      ObjStatuses := [⟨idA, "Apply", "Succeeded", "Succeeded"⟩],
      ClusterObj := cmBase }
    (by decide)

/-- The outcome of a single validation filter on one object (Go
`filter.ValidationFilter.Filter` returns `(bool, string, error)`; the
error takes precedence in the caller, so the three cases are disjoint
here). -/
inductive FilterResult where
  | passed
  | filtered (reason : String)
  | errored (msg : String)
deriving DecidableEq, Repr

/-- A named validation filter of the prune filter pipeline
(`filter.ValidationFilter`: a name and a predicate on the live
object). -/
structure ValidationFilter where
  name : String
  run : LiveObj → FilterResult

/-- Modelled from the spec: the name of the prevent-remove filter
(`filter.PreventRemoveFilterName`; the `filter` package is not under
`src/`, the constant's value is immaterial, only its comparison with a
filter's name in `Prune` matters). -/
def PreventRemoveFilterName : String := "PreventRemoveFilter"

/-- Evaluation outcome of the prune filter pipeline on one object:
either every filter passed, or the first filter that errored or blocked
(with its name), mirroring the short-circuiting filter loop of
`Pruner.Prune`. -/
inductive FilterEval where
  | passed
  | errored (name msg : String)
  | filtered (name reason : String)
deriving DecidableEq, Repr

/-- The filter loop of `Pruner.Prune`: filters run in declaration order
and the first `errored` or `filtered` result short-circuits. -/
def evalFilters : List ValidationFilter → LiveObj → FilterEval
  | [], _ => FilterEval.passed
  | f :: fs, obj =>
    match f.run obj with
    | FilterResult.errored msg => FilterEval.errored f.name msg
    | FilterResult.filtered reason => FilterEval.filtered f.name reason
    | FilterResult.passed => evalFilters fs obj

/-- An event recorded on the per-run event channel by the prune task
(the `Failed`, `Skipped` and `Success` events of the prune event
factory, keyed by the object identity). -/
inductive PruneEventRec where
  | failed (id : ObjMetadata) (msg : String)
  | skipped (id : ObjMetadata) (reason : String)
  | success (id : ObjMetadata)
deriving DecidableEq, Repr

/-- The per-run outcome accumulator as the prune task touches it
(`taskrunner.TaskContext`): the failed-, skipped-delete and abandoned
sets and the emitted events. -/
structure TaskContext where
  failedDeletes : List ObjMetadata
  skippedDeletes : List ObjMetadata
  abandoned : List ObjMetadata
  events : List PruneEventRec
deriving DecidableEq, Repr

/-- Result of fetching one live object from the cluster
(`Pruner.getObject`; spec section 6: not-found and no-match are
first-class outcomes distinct from other errors). -/
inductive FetchResult where
  | ok (obj : LiveObj)
  | notFound
  | noMatch
  | err (msg : String)
deriving DecidableEq, Repr

/-- The prune task's collaborators (`Pruner` of
`src/pkg/apply/prune/prune.go`): the inventory client's cluster-object
read, and the per-object results of the dynamic client's update (used
by `removeInventoryAnnotation`), delete, and get. -/
structure Pruner where
  clusterObjs : Except String (List ObjMetadata)
  updateResult : LiveObj → Option String
  deleteResult : ObjMetadata → Option String
  fetch : ObjMetadata → FetchResult

/-- Options of the pruner (`prune.Options`); only whether the run is a
client- or server-side dry run matters to the recorded outcomes. -/
structure PruneOptions where
  dryRun : Bool
deriving DecidableEq, Repr

/-- Removal of the owning-inventory annotation from a live object
(`Pruner.removeInventoryAnnotation`): when the annotation is present it
is deleted from a copy of the object and the copy is written through the
resource client, returning the update's error if any; when absent
nothing is written. -/
def Pruner.removeInventoryAnnot (p : Pruner) (obj : LiveObj) :
    LiveObj × Option String :=
  match lookupAnnot obj OwningInventoryKey with
  | some _ =>
    let obj2 : LiveObj :=
      ⟨obj.meta, obj.annotations.filter (fun q => !(decide (q.1 = OwningInventoryKey)))⟩
    (obj2, p.updateResult obj2)
  | none => (obj, none)

/-- The loop body of `Pruner.Prune` for a single object: evaluate the
filter pipeline; a filter error records a failed delete with a Failed
event; a block by the prevent-remove filter outside dry run first strips
the owning-inventory annotation (an error there records a failed delete
with a Failed event instead) and registers the object as abandoned, and
every block records a skipped delete with a Skipped event; when all
filters pass, the object is deleted outside dry run (a delete error
records a failed delete with a Failed event) and a Success event is
emitted. -/
def Pruner.pruneOne (p : Pruner) (pruneFilters : List ValidationFilter)
    (opts : PruneOptions) (taskContext : TaskContext) (obj : LiveObj) :
    TaskContext :=
  let id := obj.meta
  match evalFilters pruneFilters obj with
  | FilterEval.errored _ msg =>
    { taskContext with
      events := taskContext.events ++ [PruneEventRec.failed id msg],
      failedDeletes := taskContext.failedDeletes ++ [id] }
  | FilterEval.filtered fname reason =>
    if fname = PreventRemoveFilterName ∧ opts.dryRun = false then
      match Pruner.removeInventoryAnnot p obj with
      | (_, some msg) =>
        { taskContext with
          events := taskContext.events ++ [PruneEventRec.failed id msg],
          failedDeletes := taskContext.failedDeletes ++ [id] }
      | (_, none) =>
        { taskContext with
          abandoned := taskContext.abandoned ++ [id],
          events := taskContext.events ++ [PruneEventRec.skipped id reason],
          skippedDeletes := taskContext.skippedDeletes ++ [id] }
    else
      { taskContext with
        events := taskContext.events ++ [PruneEventRec.skipped id reason],
        skippedDeletes := taskContext.skippedDeletes ++ [id] }
  | FilterEval.passed =>
    if opts.dryRun = false then
      match p.deleteResult id with
      | some msg =>
        { taskContext with
          events := taskContext.events ++ [PruneEventRec.failed id msg],
          failedDeletes := taskContext.failedDeletes ++ [id] }
      | none =>
        { taskContext with
          events := taskContext.events ++ [PruneEventRec.success id] }
    else
      { taskContext with
        events := taskContext.events ++ [PruneEventRec.success id] }

/-- The prune task (`Pruner.Prune` in `src/pkg/apply/prune/prune.go`):
iterates the loop body over every object and returns the updated task
context together with the function's error result -- the Go source has
a single `return nil` and no early return, every per-object problem is
routed into the task context. -/
def Pruner.Prune (p : Pruner) (objs : List LiveObj)
    (pruneFilters : List ValidationFilter) (taskContext : TaskContext)
    (opts : PruneOptions) : TaskContext × Option String :=
  (objs.foldl (p.pruneOne pruneFilters opts) taskContext, none)

/-- Strips the owning-inventory annotation from a live object. -/
def stripOwning (obj : LiveObj) : LiveObj :=
  ⟨obj.meta, obj.annotations.filter (fun q => !(decide (q.1 = OwningInventoryKey)))⟩

/-- C8: during a non-dry-run prune of an object carrying the
owning-inventory annotation, a block by the prevent-remove filter strips
the annotation through a client update and records the object as both
abandoned and a skipped delete with a Skipped event; an error from the
annotation-removal update instead records only a failed delete (not
abandoned) with a Failed event; a block by any other filter records only
a skipped delete with a Skipped event. -/
theorem C8_prune_prevent_remove (p : Pruner)
    (pruneFilters : List ValidationFilter) (taskContext : TaskContext)
    (obj : LiveObj) (fname reason : String)
    (hfil : evalFilters pruneFilters obj = FilterEval.filtered fname reason)
    (hann : (lookupAnnot obj OwningInventoryKey).isSome = true) :
    (fname = PreventRemoveFilterName →
      (p.updateResult (stripOwning obj) = none →
        Pruner.pruneOne p pruneFilters ⟨false⟩ taskContext obj =
          { taskContext with
            abandoned := taskContext.abandoned ++ [obj.meta],
            events := taskContext.events
              ++ [PruneEventRec.skipped obj.meta reason],
            skippedDeletes := taskContext.skippedDeletes ++ [obj.meta] })
      ∧ (∀ msg, p.updateResult (stripOwning obj) = some msg →
        Pruner.pruneOne p pruneFilters ⟨false⟩ taskContext obj =
          { taskContext with
            events := taskContext.events
              ++ [PruneEventRec.failed obj.meta msg],
            failedDeletes := taskContext.failedDeletes ++ [obj.meta] }))
    ∧ (fname ≠ PreventRemoveFilterName →
      Pruner.pruneOne p pruneFilters ⟨false⟩ taskContext obj =
        { taskContext with
          events := taskContext.events
            ++ [PruneEventRec.skipped obj.meta reason],
          skippedDeletes := taskContext.skippedDeletes ++ [obj.meta] }) := by
  have hrm : Pruner.removeInventoryAnnot p obj
      = (stripOwning obj, p.updateResult (stripOwning obj)) := by
    unfold Pruner.removeInventoryAnnot stripOwning
    cases hl : lookupAnnot obj OwningInventoryKey with
    | none => rw [hl] at hann; simp at hann
    | some v => rfl
  constructor
  · intro hpr
    subst hpr
    constructor
    · intro hup
      simp [Pruner.pruneOne, hfil, hrm, hup]
    · intro msg hup
      simp [Pruner.pruneOne, hfil, hrm, hup]
  · intro hpr
    simp [Pruner.pruneOne, hfil, hpr]

/-- A prevent-remove filter that blocks every object, for the concrete
scenarios. -/
def preventFilterW : ValidationFilter :=
  ⟨PreventRemoveFilterName,
    fun _ => FilterResult.filtered "object contains the annotation to prevent deletion"⟩

/-- A pruner whose remote calls all succeed and whose inventory is
empty, for the concrete scenarios. -/
def prunerW : Pruner :=
  ⟨Except.ok [], fun _ => none, fun _ => none, fun _ => FetchResult.notFound⟩

/-- A live object owned by the inventory `"test-inv"`, for the concrete
scenarios. -/
def objW : LiveObj := ⟨idA, [(OwningInventoryKey, "test-inv")]⟩

/-- The empty task context at the start of a run. -/
def ctx0 : TaskContext := ⟨[], [], [], []⟩

/-- C8 witness: pruning the concrete annotated object through the
blocking prevent-remove filter with a succeeding update records it as
abandoned and skipped with a Skipped event. -/
theorem C8_prune_prevent_remove_witness :
    Pruner.pruneOne prunerW [preventFilterW] ⟨false⟩ ctx0 objW =
      ⟨[], [idA], [idA],
        [PruneEventRec.skipped idA
          "object contains the annotation to prevent deletion"]⟩ :=
  ((C8_prune_prevent_remove prunerW [preventFilterW] ctx0 objW
      PreventRemoveFilterName
      "object contains the annotation to prevent deletion"
      rfl rfl).1 rfl).1 rfl

/-- Classification of the per-object failure paths of the prune loop: a
filter error, an error of the owning-annotation removal when the
prevent-remove filter blocked outside dry run, or a delete error after
all filters passed. -/
def pruneFailure (p : Pruner) (pruneFilters : List ValidationFilter)
    (opts : PruneOptions) (obj : LiveObj) : Bool :=
  match evalFilters pruneFilters obj with
  | FilterEval.errored _ _ => true
  | FilterEval.filtered fname _ =>
    decide (fname = PreventRemoveFilterName) && !opts.dryRun
      && (lookupAnnot obj OwningInventoryKey).isSome
      && (p.updateResult (stripOwning obj)).isSome
  | FilterEval.passed =>
    !opts.dryRun && (p.deleteResult obj.meta).isSome

theorem pruneOne_events (p : Pruner) (fs : List ValidationFilter)
    (opts : PruneOptions) (ctx : TaskContext) (obj : LiveObj) :
    (Pruner.pruneOne p fs opts ctx obj).events.length
      = ctx.events.length + 1 := by
  cases hev : evalFilters fs obj with
  | errored n m => simp [Pruner.pruneOne, hev]
  | passed =>
    by_cases hd : opts.dryRun = false
    · cases hdel : p.deleteResult obj.meta <;>
        simp [Pruner.pruneOne, hev, hd, hdel]
    · simp [Pruner.pruneOne, hev, hd]
  | filtered n r =>
    by_cases hc : n = PreventRemoveFilterName ∧ opts.dryRun = false
    · rcases hrm : Pruner.removeInventoryAnnot p obj with ⟨o2, e⟩
      cases e <;> simp [Pruner.pruneOne, hev, hc.1, hc.2, hrm]
    · simp [Pruner.pruneOne, hev, if_neg hc]

theorem pruneOne_failed_mono (p : Pruner) (fs : List ValidationFilter)
    (opts : PruneOptions) (ctx : TaskContext) (obj : LiveObj)
    (x : ObjMetadata) (hx : x ∈ ctx.failedDeletes) :
    x ∈ (Pruner.pruneOne p fs opts ctx obj).failedDeletes := by
  cases hev : evalFilters fs obj with
  | errored n m => simp [Pruner.pruneOne, hev, hx]
  | passed =>
    by_cases hd : opts.dryRun = false
    · cases hdel : p.deleteResult obj.meta <;>
        simp [Pruner.pruneOne, hev, hd, hdel, hx]
    · simp [Pruner.pruneOne, hev, hd, hx]
  | filtered n r =>
    by_cases hc : n = PreventRemoveFilterName ∧ opts.dryRun = false
    · rcases hrm : Pruner.removeInventoryAnnot p obj with ⟨o2, e⟩
      cases e <;> simp [Pruner.pruneOne, hev, hc.1, hc.2, hrm, hx]
    · simp [Pruner.pruneOne, hev, if_neg hc, hx]

theorem pruneOne_failure (p : Pruner) (fs : List ValidationFilter)
    (opts : PruneOptions) (ctx : TaskContext) (obj : LiveObj)
    (hf : pruneFailure p fs opts obj = true) :
    obj.meta ∈ (Pruner.pruneOne p fs opts ctx obj).failedDeletes := by
  unfold pruneFailure at hf
  cases hev : evalFilters fs obj with
  | errored n m => simp [Pruner.pruneOne, hev]
  | passed =>
    rw [hev] at hf
    simp only [Bool.and_eq_true, Bool.not_eq_true'] at hf
    obtain ⟨hd, hdel⟩ := hf
    obtain ⟨msg, hmsg⟩ := Option.isSome_iff_exists.mp hdel
    simp [Pruner.pruneOne, hev, hd, hmsg]
  | filtered n r =>
    rw [hev] at hf
    simp only [Bool.and_eq_true, Bool.not_eq_true', decide_eq_true_eq] at hf
    obtain ⟨⟨⟨hn, hd⟩, hann⟩, hup⟩ := hf
    have hrm : Pruner.removeInventoryAnnot p obj
        = (stripOwning obj, p.updateResult (stripOwning obj)) := by
      unfold Pruner.removeInventoryAnnot stripOwning
      obtain ⟨v, hv⟩ := Option.isSome_iff_exists.mp hann
      rw [hv]
    obtain ⟨msg, hmsg⟩ := Option.isSome_iff_exists.mp hup
    simp [Pruner.pruneOne, hev, hn, hd, hrm, hmsg]

theorem prune_foldl_events (p : Pruner) (fs : List ValidationFilter)
    (opts : PruneOptions) (objs : List LiveObj) :
    ∀ ctx : TaskContext,
      (objs.foldl (p.pruneOne fs opts) ctx).events.length
        = ctx.events.length + objs.length := by
  induction objs with
  | nil => intro ctx; simp
  | cons b bs ih =>
    intro ctx
    rw [List.foldl_cons, ih, pruneOne_events]
    simp
    omega

theorem prune_foldl_failed_mono (p : Pruner) (fs : List ValidationFilter)
    (opts : PruneOptions) (objs : List LiveObj) :
    ∀ ctx : TaskContext, ∀ x ∈ ctx.failedDeletes,
      x ∈ (objs.foldl (p.pruneOne fs opts) ctx).failedDeletes := by
  induction objs with
  | nil => intro ctx x hx; simpa using hx
  | cons b bs ih =>
    intro ctx x hx
    rw [List.foldl_cons]
    exact ih _ x (pruneOne_failed_mono p fs opts ctx b x hx)

/-- C10: `Pruner.Prune` returns nil for every input: its error result is
always `none`; iteration never aborts -- every object contributes
exactly one event, so the event count grows by the number of objects;
and every object on a failure path (filter error, annotation-removal
error, or delete error) is recorded in the task context as a failed
delete. -/
theorem C10_prune_returns_nil (p : Pruner) (objs : List LiveObj)
    (pruneFilters : List ValidationFilter) (taskContext : TaskContext)
    (opts : PruneOptions) :
    (Pruner.Prune p objs pruneFilters taskContext opts).2 = none
    ∧ (Pruner.Prune p objs pruneFilters taskContext opts).1.events.length
        = taskContext.events.length + objs.length
    ∧ ∀ obj ∈ objs, pruneFailure p pruneFilters opts obj = true →
        obj.meta ∈ (Pruner.Prune p objs pruneFilters taskContext
          opts).1.failedDeletes := by
  refine ⟨rfl, prune_foldl_events p pruneFilters opts objs taskContext, ?_⟩
  intro obj hmem hfail
  unfold Pruner.Prune
  induction objs generalizing taskContext with
  | nil => simp at hmem
  | cons b bs ih =>
    rw [List.mem_cons] at hmem
    rw [List.foldl_cons]
    rcases hmem with hmem | hmem
    · subst hmem
      exact prune_foldl_failed_mono p pruneFilters opts bs _ obj.meta
        (pruneOne_failure p pruneFilters opts taskContext obj hfail)
    · exact ih _ hmem

/-- A filter that errors on every object, for the concrete scenarios. -/
def errorFilterW : ValidationFilter :=
  ⟨"fake-filter", fun _ => FilterResult.errored "underlying filter error"⟩

/-- C10 witness: pruning the concrete object through an erroring filter
returns nil, emits one event, and records the object as a failed
delete. -/
theorem C10_prune_returns_nil_witness :
    (Pruner.Prune prunerW [objW] [errorFilterW] ctx0 ⟨false⟩).2 = none
    ∧ (Pruner.Prune prunerW [objW] [errorFilterW] ctx0
        ⟨false⟩).1.events.length = 1
    ∧ idA ∈ (Pruner.Prune prunerW [objW] [errorFilterW] ctx0
        ⟨false⟩).1.failedDeletes :=
  ⟨(C10_prune_returns_nil prunerW [objW] [errorFilterW] ctx0 ⟨false⟩).1,
    (C10_prune_returns_nil prunerW [objW] [errorFilterW] ctx0 ⟨false⟩).2.1,
    (C10_prune_returns_nil prunerW [objW] [errorFilterW] ctx0 ⟨false⟩).2.2
      objW (by simp) (by decide)⟩

/-- Modelled from the spec: the fixed kind-precedence list of the
ordering relation (spec section 3: "Resources are totally ordered by
kind using a fixed precedence list (namespaces and CRDs first;
workloads after their configs)"; the `ordering` package is not under
`src/`).  The exact membership of the list is immaterial to the claims;
unknown kinds sort after every listed kind. -/
def kindOrder : List String :=
  ["Namespace", "ResourceQuota", "CustomResourceDefinition",
    "ServiceAccount", "Role", "RoleBinding", "ConfigMap", "Secret",
    "Service", "Deployment", "StatefulSet", "CronJob"]

/-- Precedence index of a kind; unknown kinds get the index past the
end of the list. -/
def kindPriority (k : String) : Nat :=
  kindOrder.indexOf k

/-- The sort key of a live object: kind precedence first, canonical
identity string as the tie breaker, compared lexicographically. -/
def sortKey (o : LiveObj) : ℕ ×ₗ String :=
  toLex (kindPriority o.meta.kind, toCanonical o.meta)

/-- Modelled from the spec: the apply ordering relation on live objects
(`ordering.SortableUnstructureds`'s less; spec section 3: the apply
engine applies in ascending order of this relation, the prune engine in
descending order). -/
def lessObj (a b : LiveObj) : Prop :=
  sortKey a < sortKey b

instance : DecidableRel lessObj := fun a b =>
  inferInstanceAs (Decidable (sortKey a < sortKey b))

/-- The comparison used to sort the prune set: the reverse of the apply
ordering (`sort.Sort(sort.Reverse(ordering.SortableUnstructureds(objs)))`
in `Pruner.GetPruneObjs`). -/
def pruneGE (a b : LiveObj) : Prop :=
  ¬ lessObj a b

instance : DecidableRel pruneGE := fun a b =>
  inferInstanceAs (Decidable (¬ lessObj a b))

instance : IsTotal LiveObj pruneGE :=
  ⟨fun a b => (le_total (sortKey b) (sortKey a)).imp not_lt.mpr not_lt.mpr⟩

instance : IsTrans LiveObj pruneGE :=
  ⟨fun _ _ _ hab hbc =>
    not_lt.mpr (le_trans (not_lt.mp hbc) (not_lt.mp hab))⟩

/-- The collection loop of `Pruner.GetPruneObjs`: each ID of the prune
set is fetched from the cluster; a no-match (unregistered kind) or a
not-found skips the ID silently, any other fetch error aborts the whole
computation with that error, and a fetched object is collected. -/
def collectPruneObjs (fetch : ObjMetadata → FetchResult) :
    List ObjMetadata → Except String (List LiveObj)
  | [] => Except.ok []
  | id :: rest =>
    match fetch id with
    | FetchResult.noMatch => collectPruneObjs fetch rest
    | FetchResult.notFound => collectPruneObjs fetch rest
    | FetchResult.err msg => Except.error msg
    | FetchResult.ok obj =>
      match collectPruneObjs fetch rest with
      | Except.error msg => Except.error msg
      | Except.ok objs => Except.ok (obj :: objs)

/-- The first fetch error encountered while walking a list of IDs. -/
def firstFetchErr (fetch : ObjMetadata → FetchResult) :
    List ObjMetadata → Option String
  | [] => none
  | id :: rest =>
    match fetch id with
    | FetchResult.err msg => some msg
    | _ => firstFetchErr fetch rest

/-- The prune-set computation (`Pruner.GetPruneObjs` in
`src/pkg/apply/prune/prune.go`): the IDs recorded in the cluster
inventory minus the IDs of the desired objects; each remaining ID is
fetched (no-match and not-found skip silently, other errors abort), and
the fetched objects are sorted in reverse apply order. -/
def Pruner.GetPruneObjs (p : Pruner) (objs : List LiveObj) :
    Except String (List LiveObj) :=
  match p.clusterObjs with
  | Except.error e => Except.error e
  | Except.ok invIDs =>
    match collectPruneObjs p.fetch
        (oDiff invIDs (objs.map LiveObj.meta)) with
    | Except.error e => Except.error e
    | Except.ok pruneObjs =>
      Except.ok (List.insertionSort pruneGE pruneObjs)

theorem collectPruneObjs_ok (fetch : ObjMetadata → FetchResult)
    (ids : List ObjMetadata)
    (hne : ∀ id ∈ ids, ∀ msg, fetch id ≠ FetchResult.err msg) :
    ∃ l, collectPruneObjs fetch ids = Except.ok l
      ∧ ∀ o, o ∈ l ↔ ∃ id ∈ ids, fetch id = FetchResult.ok o := by
  induction ids with
  | nil => exact ⟨[], rfl, by simp⟩
  | cons id rest ih =>
    obtain ⟨l, hl, hmem⟩ := ih (fun i hi => hne i (List.mem_cons_of_mem _ hi))
    cases hf : fetch id with
    | err msg => exact absurd hf (hne id (List.mem_cons_self _ _) msg)
    | notFound =>
      refine ⟨l, by simp [collectPruneObjs, hf, hl], ?_⟩
      intro o
      rw [hmem]
      constructor
      · rintro ⟨i, hi, ho⟩
        exact ⟨i, List.mem_cons_of_mem _ hi, ho⟩
      · rintro ⟨i, hi, ho⟩
        rcases List.mem_cons.mp hi with hi | hi
        · rw [hi] at ho
          rw [hf] at ho
          cases ho
        · exact ⟨i, hi, ho⟩
    | noMatch =>
      refine ⟨l, by simp [collectPruneObjs, hf, hl], ?_⟩
      intro o
      rw [hmem]
      constructor
      · rintro ⟨i, hi, ho⟩
        exact ⟨i, List.mem_cons_of_mem _ hi, ho⟩
      · rintro ⟨i, hi, ho⟩
        rcases List.mem_cons.mp hi with hi | hi
        · rw [hi] at ho
          rw [hf] at ho
          cases ho
        · exact ⟨i, hi, ho⟩
    | ok obj =>
      refine ⟨obj :: l, by simp [collectPruneObjs, hf, hl], ?_⟩
      intro o
      simp only [List.mem_cons, hmem]
      constructor
      · rintro (ho | ⟨i, hi, ho⟩)
        · exact ⟨id, Or.inl rfl, by rw [ho]; exact hf⟩
        · exact ⟨i, Or.inr hi, ho⟩
      · rintro ⟨i, hi | hi, ho⟩
        · rw [hi, hf] at ho
          exact Or.inl (by injection ho with h; exact h.symm)
        · exact Or.inr ⟨i, hi, ho⟩

theorem collectPruneObjs_err (fetch : ObjMetadata → FetchResult)
    (ids : List ObjMetadata) (msg : String)
    (herr : firstFetchErr fetch ids = some msg) :
    collectPruneObjs fetch ids = Except.error msg := by
  induction ids with
  | nil => cases herr
  | cons id rest ih =>
    cases hf : fetch id with
    | err m =>
      rw [firstFetchErr, hf] at herr
      injection herr with h
      rw [collectPruneObjs, hf, h]
    | notFound =>
      rw [firstFetchErr, hf] at herr
      rw [collectPruneObjs, hf]
      exact ih herr
    | noMatch =>
      rw [firstFetchErr, hf] at herr
      rw [collectPruneObjs, hf]
      exact ih herr
    | ok obj =>
      rw [firstFetchErr, hf] at herr
      rw [collectPruneObjs, hf, ih herr]

/-- C6: `GetPruneObjs` returns exactly the live objects whose IDs are in
the cluster inventory minus the desired set: when every fetch in that
difference is an object, a not-found or a no-match, the call succeeds
and an object is in the result iff its ID is in the difference and its
fetch returned it (not-found and no-match IDs are silently omitted);
and when the walk of the difference hits a fetch error, the call aborts
with exactly that error. -/
theorem C6_get_prune_objs (p : Pruner) (objs : List LiveObj)
    (invIDs : List ObjMetadata)
    (hinv : p.clusterObjs = Except.ok invIDs)
    (hmeta : ∀ id obj, p.fetch id = FetchResult.ok obj → obj.meta = id) :
    ((∀ id ∈ oDiff invIDs (objs.map LiveObj.meta), ∀ msg,
        p.fetch id ≠ FetchResult.err msg) →
      ∃ l, Pruner.GetPruneObjs p objs = Except.ok l
        ∧ ∀ o, o ∈ l ↔ (o.meta ∈ oDiff invIDs (objs.map LiveObj.meta)
            ∧ p.fetch o.meta = FetchResult.ok o))
    ∧ (∀ msg, firstFetchErr p.fetch (oDiff invIDs (objs.map LiveObj.meta))
          = some msg →
        Pruner.GetPruneObjs p objs = Except.error msg) := by
  constructor
  · intro hne
    obtain ⟨l, hl, hmem⟩ := collectPruneObjs_ok p.fetch _ hne
    refine ⟨List.insertionSort pruneGE l, ?_, ?_⟩
    · simp [Pruner.GetPruneObjs, hinv, hl]
    · intro o
      rw [(List.perm_insertionSort pruneGE l).mem_iff, hmem]
      constructor
      · rintro ⟨i, hi, ho⟩
        have := hmeta i o ho
        rw [← this] at hi ho
        exact ⟨hi, ho⟩
      · rintro ⟨hi, ho⟩
        exact ⟨o.meta, hi, ho⟩
  · intro msg herr
    simp [Pruner.GetPruneObjs, hinv,
      collectPruneObjs_err p.fetch _ msg herr]

/-- A pruner over a two-object cluster inventory whose first object is
already gone from the cluster, for the concrete scenarios. -/
def prunerC6 : Pruner :=
  ⟨Except.ok [idA, idB], fun _ => none, fun _ => none,
    fun id => if id = idB then FetchResult.ok ⟨idB, []⟩
      else FetchResult.notFound⟩

theorem prunerC6_meta : ∀ id obj,
    prunerC6.fetch id = FetchResult.ok obj → obj.meta = id := by
  intro id obj h
  unfold prunerC6 at h
  simp only at h
  by_cases hid : id = idB
  · rw [if_pos hid] at h
    injection h with h2
    rw [← h2, hid]
  · rw [if_neg hid] at h
    cases h

/-- C6 witness: with an empty desired set, the prune set is the whole
inventory; the vanished first object is silently omitted and exactly
the live second object is returned. -/
theorem C6_get_prune_objs_witness :
    (∃ l, Pruner.GetPruneObjs prunerC6 [] = Except.ok l
      ∧ ∀ o, o ∈ l ↔ (o.meta ∈ oDiff [idA, idB] (List.map LiveObj.meta [])
          ∧ prunerC6.fetch o.meta = FetchResult.ok o)) :=
  (C6_get_prune_objs prunerC6 [] [idA, idB] rfl prunerC6_meta).1
    (by
      intro id hid msg h
      have hid2 : id = idA ∨ id = idB := by simpa [oDiff] using hid
      rcases hid2 with h2 | h2
      · subst h2
        rw [(by decide : prunerC6.fetch idA = FetchResult.notFound)] at h
        exact FetchResult.noConfusion h
      · subst h2
        rw [(by decide :
          prunerC6.fetch idB = FetchResult.ok ⟨idB, []⟩)] at h
        exact FetchResult.noConfusion h)

/-- C7: the object list returned by `GetPruneObjs` is in strictly
reverse apply order: whenever one object of the result precedes another
in the apply ordering (it would be applied first), it occupies a later
position of the prune list (it is pruned last). -/
theorem C7_prune_reverse_order (p : Pruner) (objs : List LiveObj)
    (l : List LiveObj) (hok : Pruner.GetPruneObjs p objs = Except.ok l)
    (i j : Nat) (hi : i < l.length) (hj : j < l.length)
    (hless : lessObj (l.get ⟨i, hi⟩) (l.get ⟨j, hj⟩)) :
    j < i := by
  have hsorted : List.Sorted pruneGE l := by
    unfold Pruner.GetPruneObjs at hok
    cases hc : p.clusterObjs with
    | error e =>
      rw [hc] at hok
      simp at hok
    | ok invIDs =>
      rw [hc] at hok
      cases hcol : collectPruneObjs p.fetch
          (oDiff invIDs (objs.map LiveObj.meta)) with
      | error e =>
        simp [hcol] at hok
      | ok pruneObjs =>
        simp [hcol] at hok
        rw [← hok]
        exact List.sorted_insertionSort pruneGE pruneObjs
  rcases Nat.lt_trichotomy i j with hij | hij | hij
  · exact absurd hless (List.pairwise_iff_get.mp hsorted ⟨i, hi⟩ ⟨j, hj⟩ hij)
  · subst hij
    exact absurd hless (lt_irrefl (sortKey (l.get ⟨i, hi⟩)))
  · exact hij

/-- A pruner over a cluster inventory holding a workload and a
namespace, both live, for the concrete scenarios. -/
def prunerC7 : Pruner :=
  ⟨Except.ok [idA, idB], fun _ => none, fun _ => none,
    fun id => if id = idB then FetchResult.ok ⟨idB, []⟩
      else if id = idA then FetchResult.ok ⟨idA, []⟩
      else FetchResult.notFound⟩

/-- C7 witness: the concrete prune list puts the deployment (applied
after the namespace) before the namespace, and the theorem places the
namespace -- which is applied first -- at the later position. -/
theorem C7_prune_reverse_order_witness :
    Pruner.GetPruneObjs prunerC7 []
      = Except.ok [⟨idA, []⟩, ⟨idB, []⟩]
    ∧ 0 < 1 :=
  ⟨rfl,
    C7_prune_reverse_order prunerC7 [] [⟨idA, []⟩, ⟨idB, []⟩]
      rfl 1 0 (by decide) (by decide) (by decide)⟩

/-- Errors of the remote dynamic client; not-found is a first-class
case because `UnstructuredClient.Update` branches on
`apierrors.IsNotFound`. -/
inductive RemoteErr where
  | notFound
  | other (msg : String)
deriving DecidableEq, Repr

/-- The status policy of the inventory client (`StatusPolicy`): whether
status subrecords are written. -/
inductive StatusPolicy where
  | StatusPolicyNone
  | StatusPolicyAll
deriving DecidableEq, Repr

/-- Options of `WriteClient.Update` (`UpdateOptions`). -/
structure UpdateOptions where
  UpdateStatus : Bool
deriving DecidableEq, Repr

/-- The mocked remote store behind the dynamic client, as the tests
wire it (`cmdtesting` fake dynamic client with reactors counting update
and create calls): at most one stored ConfigMap, a version counter for
server-assigned resource versions, and the observed call counts. -/
structure FakeCluster where
  stored : Option ConfigMapObj
  nextRV : Nat
  updateCalls : Nat
  createCalls : Nat
  updateStatusCalls : Nat
deriving DecidableEq, Repr

/-- The remote update call: counted; not-found when nothing is stored,
otherwise the object is stored with a fresh server-assigned resource
version and returned. -/
def remoteUpdate (st : FakeCluster) (obj : ConfigMapObj) :
    FakeCluster × Except RemoteErr ConfigMapObj :=
  let st1 := { st with updateCalls := st.updateCalls + 1 }
  match st1.stored with
  | none => (st1, Except.error RemoteErr.notFound)
  | some _ =>
    let newObj := { obj with resourceVersion := st1.nextRV }
    ({ st1 with stored := some newObj, nextRV := st1.nextRV + 1 },
      Except.ok newObj)

/-- The remote create call: counted; fails when an object is already
stored, otherwise stores the object with a fresh resource version and
returns it. -/
def remoteCreate (st : FakeCluster) (obj : ConfigMapObj) :
    FakeCluster × Except RemoteErr ConfigMapObj :=
  let st1 := { st with createCalls := st.createCalls + 1 }
  match st1.stored with
  | some _ => (st1, Except.error (RemoteErr.other "already exists"))
  | none =>
    let newObj := { obj with resourceVersion := st1.nextRV }
    ({ st1 with stored := some newObj, nextRV := st1.nextRV + 1 },
      Except.ok newObj)

/-- The remote status-update call: counted; not-found when nothing is
stored, otherwise stores and returns the object. -/
def remoteUpdateStatus (st : FakeCluster) (obj : ConfigMapObj) :
    FakeCluster × Except RemoteErr ConfigMapObj :=
  let st1 := { st with updateStatusCalls := st.updateStatusCalls + 1 }
  match st1.stored with
  | none => (st1, Except.error RemoteErr.notFound)
  | some _ => ({ st1 with stored := some obj }, Except.ok obj)

/-- The inventory write client over a single unstructured object
(`UnstructuredClient` of `src/pkg/inventory/inventory-client.go`; its
translator pair is `inventoryToConfigMap`/`configMapToInventory`, and
the remote resource interface is the `FakeCluster` state threaded
through the calls). -/
structure UnstructuredClient where
  statusPolicy : StatusPolicy
deriving DecidableEq, Repr

/-- `UnstructuredClient.Update`: encodes the inventory and issues a
remote update; a not-found falls back to exactly one create, whose
result object is re-attached as the in-memory `ClusterObj`; any other
update error or a create error is returned.  After a successful plain
update the returned object is re-attached; then, unless the status
policy is none or the options do not ask for status, the resource
version is refreshed, `observedGeneration` is set to the new generation
when the remote reports one, and a status update is issued whose result
is re-attached. -/
def UnstructuredClient.Update (cic : UnstructuredClient)
    (st : FakeCluster) (inv : Option UnstructuredInventory)
    (opts : UpdateOptions) :
    FakeCluster × Except RemoteErr UnstructuredInventory :=
  match inv with
  | none => (st, Except.error (RemoteErr.other "inventory is nil"))
  | some ui =>
    let uObj := inventoryToConfigMap ui
    match remoteUpdate st uObj with
    | (st1, Except.error RemoteErr.notFound) =>
      match remoteCreate st1 uObj with
      | (st2, Except.error e) => (st2, Except.error e)
      | (st2, Except.ok newObj) =>
        (st2, Except.ok { ui with ClusterObj := newObj })
    | (st1, Except.error e) => (st1, Except.error e)
    | (st1, Except.ok newObj) =>
      let ui1 := { ui with ClusterObj := newObj }
      if cic.statusPolicy = StatusPolicy.StatusPolicyNone
          ∨ opts.UpdateStatus = false then
        (st1, Except.ok ui1)
      else
        let uObj1 := { uObj with resourceVersion := newObj.resourceVersion }
        let uObj2 :=
          if newObj.observedGeneration.isSome then
            { uObj1 with observedGeneration := some newObj.generation }
          else uObj1
        match remoteUpdateStatus st1 uObj2 with
        | (st2, Except.error e) => (st2, Except.error e)
        | (st2, Except.ok newObj2) =>
          (st2, Except.ok { ui1 with ClusterObj := newObj2 })

/-- The empty remote store before the first run: nothing stored, no
calls observed. -/
def cluster0 : FakeCluster := ⟨none, 1, 0, 0, 0⟩

/-- C4: create-or-update. Starting from a remote store without the
inventory object, the first `Update` hits not-found, falls back to
exactly one create (call counts one update, one create), succeeds, and
re-attaches the server-returned object -- which is now the stored
object -- as the in-memory `ClusterObj`; a second `Update` on the
returned record (with new objects) succeeds without another create
(call counts two updates, one create). -/
theorem C4_create_or_update (objs1 objs2 : List ObjMetadata)
    (sts1 sts2 : List ObjectStatus) (base : ConfigMapObj) :
    ∃ st1 inv1,
      UnstructuredClient.Update ⟨StatusPolicy.StatusPolicyNone⟩ cluster0
        (some ⟨objs1, sts1, base⟩) ⟨false⟩ = (st1, Except.ok inv1)
      ∧ st1.updateCalls = 1 ∧ st1.createCalls = 1
      ∧ st1.stored = some inv1.ClusterObj
      ∧ inv1.Objs = objs1
      ∧ ∃ st2 inv2,
          UnstructuredClient.Update ⟨StatusPolicy.StatusPolicyNone⟩ st1
            (some ⟨objs2, sts2, inv1.ClusterObj⟩) ⟨false⟩
            = (st2, Except.ok inv2)
          ∧ st2.updateCalls = 2 ∧ st2.createCalls = 1
          ∧ st2.stored = some inv2.ClusterObj
          ∧ inv2.Objs = objs2 := by
  refine ⟨_, _, rfl, rfl, rfl, rfl, rfl, _, _, rfl, rfl, rfl, rfl, rfl⟩

/-- Apply event operations (`event.ApplyEventOperation`). -/
inductive ApplyOp where
  | ApplyUnspecified
  | ServersideApplied
  | Created
  | Unchanged
  | Configured
deriving DecidableEq, Repr

/-- Prune event operations (`event.PruneEventOperation`). -/
inductive PruneOp where
  | Pruned
  | PruneSkipped
deriving DecidableEq, Repr

/-- Delete event operations (`event.DeleteEventOperation`). -/
inductive DeleteOp where
  | Deleted
  | DeleteSkipped
deriving DecidableEq, Repr

/-- Wait event operations (`event.WaitEventOperation`). -/
inductive WaitOp where
  | Reconciled
  | ReconcileSkipped
  | ReconcileTimeout
deriving DecidableEq, Repr

/-- Apply counters of the printer (`ApplyStats` in
`src/pkg/print/common/color_test.go`'s list-printer document). -/
structure ApplyStats where
  serversideApplied : Nat
  created : Nat
  unchanged : Nat
  configured : Nat
  failed : Nat
deriving DecidableEq, Repr

/-- `ApplyStats.inc`: counts the operation; `ApplyUnspecified` counts
nothing. -/
def ApplyStats.inc (a : ApplyStats) (op : ApplyOp) : ApplyStats :=
  match op with
  | ApplyOp.ApplyUnspecified => a
  | ApplyOp.ServersideApplied => { a with serversideApplied := a.serversideApplied + 1 }
  | ApplyOp.Created => { a with created := a.created + 1 }
  | ApplyOp.Unchanged => { a with unchanged := a.unchanged + 1 }
  | ApplyOp.Configured => { a with configured := a.configured + 1 }

/-- Prune counters of the printer (`PruneStats`). -/
structure PruneStats where
  pruned : Nat
  skipped : Nat
  failed : Nat
deriving DecidableEq, Repr

/-- Delete counters of the printer (`DeleteStats`). -/
structure DeleteStats where
  deleted : Nat
  skipped : Nat
  failed : Nat
deriving DecidableEq, Repr

/-- Wait counters of the printer (`WaitStats`). -/
structure WaitStats where
  reconciled : Nat
  timeout : Nat
  skipped : Nat
deriving DecidableEq, Repr

/-- The full counter state of one `Print` run. -/
structure PrintStats where
  applyStats : ApplyStats
  pruneStats : PruneStats
  deleteStats : DeleteStats
  waitStats : WaitStats
deriving DecidableEq, Repr

/-- The zero counters at the start of `Print`. -/
def printStats0 : PrintStats := ⟨⟨0, 0, 0, 0, 0⟩, ⟨0, 0, 0⟩, ⟨0, 0, 0⟩, ⟨0, 0, 0⟩⟩

/-- The events of the channel as the printer's statistics see them: the
operation of apply, prune and delete events together with whether the
event carries an error, the wait operation, the terminal error event,
and the variants that touch no counter. -/
inductive PrintEvent where
  | initEvent
  | errorEvent (msg : String)
  | applyEvent (op : ApplyOp) (error : Option String)
  | statusEvent
  | pruneEvent (op : PruneOp) (error : Option String)
  | deleteEvent (op : DeleteOp) (error : Option String)
  | waitEvent (op : WaitOp)
  | actionGroupEvent
deriving DecidableEq, Repr

/-- One iteration of `Print`'s statistics accumulation: apply events
count their operation and additionally a failure when they carry an
error; prune and delete events count their operation and additionally a
failure on error; wait events count their operation; the other variants
touch no counter. -/
def stepStats (s : PrintStats) (e : PrintEvent) : PrintStats :=
  match e with
  | PrintEvent.applyEvent op err =>
    let a1 := s.applyStats.inc op
    let a2 := if err.isSome then { a1 with failed := a1.failed + 1 } else a1
    { s with applyStats := a2 }
  | PrintEvent.pruneEvent op err =>
    let p1 :=
      match op with
      | PruneOp.Pruned => { s.pruneStats with pruned := s.pruneStats.pruned + 1 }
      | PruneOp.PruneSkipped => { s.pruneStats with skipped := s.pruneStats.skipped + 1 }
    let p2 := if err.isSome then { p1 with failed := p1.failed + 1 } else p1
    { s with pruneStats := p2 }
  | PrintEvent.deleteEvent op err =>
    let d1 :=
      match op with
      | DeleteOp.Deleted => { s.deleteStats with deleted := s.deleteStats.deleted + 1 }
      | DeleteOp.DeleteSkipped => { s.deleteStats with skipped := s.deleteStats.skipped + 1 }
    let d2 := if err.isSome then { d1 with failed := d1.failed + 1 } else d1
    { s with deleteStats := d2 }
  | PrintEvent.waitEvent op =>
    let w1 :=
      match op with
      | WaitOp.Reconciled => { s.waitStats with reconciled := s.waitStats.reconciled + 1 }
      | WaitOp.ReconcileSkipped => { s.waitStats with skipped := s.waitStats.skipped + 1 }
      | WaitOp.ReconcileTimeout => { s.waitStats with timeout := s.waitStats.timeout + 1 }
    { s with waitStats := w1 }
  | _ => s

/-- The failure sum of the final switch of `Print`:
`applyStats.Failed + pruneStats.Failed + deleteStats.Failed`. -/
def failedSumOf (s : PrintStats) : Nat :=
  s.applyStats.failed + s.pruneStats.failed + s.deleteStats.failed

/-- The aggregate message when both failures and reconcile timeouts
occurred. -/
def msgBoth (failedSum timeout : Nat) : String :=
  toString failedSum ++ " resources failed, " ++ toString timeout
    ++ " resources failed to reconcile before timeout"

/-- The aggregate message when only failures occurred. -/
def msgFailed (failedSum : Nat) : String :=
  toString failedSum ++ " resources failed"

/-- The aggregate message when only reconcile timeouts occurred. -/
def msgTimeout (timeout : Nat) : String :=
  toString timeout ++ " resources failed to reconcile before timeout"

/-- The final switch of `BaseListPrinter.Print`: the combined message
when both the failure sum and the timeout count are positive, the
failures-only message when only the failure sum is, the timeout-only
message when only the timeout count is, and success (`nil`) when both
are zero. -/
def printSummary (failedSum timeout : Nat) : Option String :=
  if failedSum > 0 ∧ timeout > 0 then some (msgBoth failedSum timeout)
  else if failedSum > 0 then some (msgFailed failedSum)
  else if timeout > 0 then some (msgTimeout timeout)
  else none

/-- The event loop of `BaseListPrinter.Print` over the closed channel's
event list: an error event returns its error immediately; every other
event updates the counters; when the channel is exhausted the final
switch decides the aggregate result (`none` is the nil return). -/
def printLoop : PrintStats → List PrintEvent → Option String
  | s, [] => printSummary (failedSumOf s) s.waitStats.timeout
  | _, PrintEvent.errorEvent msg :: _ => some msg
  | s, e :: rest => printLoop (stepStats s e) rest

/-- `Print` on a full event stream, from zero counters. -/
def PrintRun (events : List PrintEvent) : Option String :=
  printLoop printStats0 events

/-- Whether an event is the terminal error event. -/
def isErrorEvent : PrintEvent → Bool
  | PrintEvent.errorEvent _ => true
  | _ => false

/-- C9 counterexample: a run with exactly one failed apply and no
timeouts returns the error `"1 resources failed"`, which is not of the
combined form `"N resources failed, M resources failed to reconcile
before timeout"` that the claim prescribes whenever either count is
nonzero. -/
theorem C9_counterexample :
    PrintRun [PrintEvent.applyEvent ApplyOp.Created (some "apply error")]
      = some "1 resources failed"
    ∧ PrintRun [PrintEvent.applyEvent ApplyOp.Created (some "apply error")]
      ≠ some (msgBoth 1 0) := by
  constructor
  · rfl
  · intro h
    have : ("1 resources failed" : String) = msgBoth 1 0 := by
      have h2 := h
      rw [(rfl : PrintRun [PrintEvent.applyEvent ApplyOp.Created
        (some "apply error")] = some "1 resources failed")] at h2
      injection h2
    exact absurd this (by decide)

theorem printLoop_no_error (events : List PrintEvent)
    (h : ∀ e ∈ events, isErrorEvent e = false) :
    ∀ s, printLoop s events
      = printSummary (failedSumOf (events.foldl stepStats s))
          ((events.foldl stepStats s).waitStats.timeout) := by
  induction events with
  | nil => intro s; rfl
  | cons e rest ih =>
    intro s
    have he : isErrorEvent e = false := h e (List.mem_cons_self _ _)
    have hrest : ∀ e2 ∈ rest, isErrorEvent e2 = false :=
      fun e2 h2 => h e2 (List.mem_cons_of_mem _ h2)
    rw [List.foldl_cons]
    cases e with
    | errorEvent msg => simp [isErrorEvent] at he
    | initEvent => exact ih hrest (stepStats s PrintEvent.initEvent)
    | statusEvent => exact ih hrest _
    | actionGroupEvent => exact ih hrest _
    | applyEvent op err => exact ih hrest _
    | pruneEvent op err => exact ih hrest _
    | deleteEvent op err => exact ih hrest _
    | waitEvent op => exact ih hrest _

/-- C9 (amended): on a run whose event stream carries no terminal error
event, with `failedSum` the sum of failed applies, failed prunes and
failed deletes accumulated from the events, `Print` returns the
combined "N resources failed, M resources failed to reconcile before
timeout" error exactly when both `failedSum` and the wait-timeout count
are nonzero, the single-clause messages when exactly one of them is
nonzero, and success (`nil`) exactly when both are zero. -/
theorem C9_print_aggregate_error (events : List PrintEvent)
    (h : ∀ e ∈ events, isErrorEvent e = false) :
    PrintRun events
      = printSummary (failedSumOf (events.foldl stepStats printStats0))
          ((events.foldl stepStats printStats0).waitStats.timeout)
    ∧ (∀ f t : Nat, (printSummary f t = none ↔ f = 0 ∧ t = 0))
    ∧ (∀ f t : Nat, 0 < f → 0 < t → printSummary f t = some (msgBoth f t))
    ∧ (∀ f t : Nat, 0 < f → t = 0 → printSummary f t = some (msgFailed f))
    ∧ (∀ f t : Nat, f = 0 → 0 < t → printSummary f t = some (msgTimeout t)) := by
  refine ⟨printLoop_no_error events h printStats0, ?_, ?_, ?_, ?_⟩
  · intro f t
    unfold printSummary
    rcases Nat.eq_zero_or_pos f with hf | hf
    · rcases Nat.eq_zero_or_pos t with ht | ht
      · simp [hf, ht]
      · simp [hf, ht, Nat.pos_iff_ne_zero.mp ht]
    · rcases Nat.eq_zero_or_pos t with ht | ht
      · simp [hf, ht, Nat.pos_iff_ne_zero.mp hf]
      · simp [hf, ht, Nat.pos_iff_ne_zero.mp hf, Nat.pos_iff_ne_zero.mp ht]
  · intro f t hf ht
    unfold printSummary
    rw [if_pos ⟨hf, ht⟩]
  · intro f t hf ht
    unfold printSummary
    rw [if_neg (fun hc => by rw [ht] at hc; exact Nat.lt_irrefl 0 hc.2),
      if_pos hf]
  · intro f t hf ht
    unfold printSummary
    rw [if_neg (fun hc => by rw [hf] at hc; exact Nat.lt_irrefl 0 hc.1),
      if_neg (fun hc => by rw [hf] at hc; exact Nat.lt_irrefl 0 hc),
      if_pos ht]

/-- C9 witness: a stream with one failed apply and one reconcile
timeout -- `Print` returns the combined aggregate message. -/
theorem C9_print_aggregate_error_witness :
    PrintRun [PrintEvent.applyEvent ApplyOp.Created (some "apply error"),
        PrintEvent.waitEvent WaitOp.ReconcileTimeout]
      = printSummary (failedSumOf
          ([PrintEvent.applyEvent ApplyOp.Created (some "apply error"),
            PrintEvent.waitEvent WaitOp.ReconcileTimeout].foldl stepStats
            printStats0))
          (([PrintEvent.applyEvent ApplyOp.Created (some "apply error"),
            PrintEvent.waitEvent WaitOp.ReconcileTimeout].foldl stepStats
            printStats0).waitStats.timeout)
    ∧ (∀ f t : Nat, (printSummary f t = none ↔ f = 0 ∧ t = 0))
    ∧ (∀ f t : Nat, 0 < f → 0 < t → printSummary f t = some (msgBoth f t))
    ∧ (∀ f t : Nat, 0 < f → t = 0 → printSummary f t = some (msgFailed f))
    ∧ (∀ f t : Nat, f = 0 → 0 < t → printSummary f t = some (msgTimeout t)) :=
  C9_print_aggregate_error
    [PrintEvent.applyEvent ApplyOp.Created (some "apply error"),
      PrintEvent.waitEvent WaitOp.ReconcileTimeout]
    (by decide)

end CliUtils
